import Mathlib

/-!
Shallow embedding of the deck state manager of `src/flashcard-app/src/App.js`
(a single-page flashcard study tool). Cards are stored as the JSON values the
app actually keeps (import stores the parsed objects unchanged), the cursor is
a JavaScript integer, and the flip flag is a boolean. Every operation below is
translated from the corresponding handler in App.js.
-/

/-- JSON values as produced by JSON.parse: null, booleans, numbers (restricted
to integers, which covers every value the claims touch), strings, arrays, and
objects with fields in document order. -/
inductive Json where
  | null
  | bool (b : Bool)
  | num (n : Int)
  | str (s : String)
  | arr (elems : List Json)
  | obj (fields : List (String × Json))

/-- JavaScript truthiness of a JSON value: null and false are falsy, a number
is truthy when nonzero, a string when non-empty, arrays and objects always. -/
def truthy : Json → Bool
  | .null => false
  | .bool b => b
  | .num n => n != 0
  | .str s => s != ""
  | .arr _ => true
  | .obj _ => true

/-- First-match field lookup in a JSON object. -/
def lookupField : List (String × Json) → String → Option Json
  | [], _ => none
  | (k, v) :: rest, key => if k == key then some v else lookupField rest key

/-- Truthiness of a `card.front`-style property access on a non-null JSON
value: objects look the field up (a missing field is undefined, falsy); on
primitives and arrays the access yields undefined, which is falsy. -/
def jsTruthyField (c : Json) (key : String) : Bool :=
  match c with
  | .obj fields =>
    match lookupField fields key with
    | some v => truthy v
    | none => false
  | _ => false

/-- The importCards filter predicate, `(card) => card.front && card.back`. -/
def cardValid (c : Json) : Bool :=
  jsTruthyField c "front" && jsTruthyField c "back"

/-- The filter pass of importCards. Property access `card.front` on a JSON
null throws a TypeError, which the surrounding try/catch turns into the
caught-error path; `none` models that throw. On any other element the filter
keeps exactly the entries with truthy front and back fields. -/
def filterValid : List Json → Option (List Json)
  | [] => some []
  | c :: rest =>
    match c with
    | .null => none
    | _ =>
      match filterValid rest with
      | none => none
      | some r => some (if cardValid c then c :: r else r)

/-- A card object as built by addCard: the two strings are stored verbatim. -/
def mkCard (front back : String) : Json :=
  .obj [("front", .str front), ("back", .str back)]

/-- The built-in three-card default deck, used by the useState(cards)
initializer when nothing is persisted and by resetCards. -/
def defaultCards : List Json :=
  [ mkCard "What is React?" "A JavaScript library for building user interfaces",
    mkCard "What is a React Hook?"
      "Functions that let you use state and other React features without writing a class",
    mkCard "What is JSX?" "A syntax extension for JavaScript that looks similar to HTML" ]

/-- The deck-manager state: the card list, the cursor, and the flip flag. -/
structure AppState where
  cards : List Json
  currentIndex : Int
  isFlipped : Bool

/-- Deck initializer: the persisted entry (given here already parsed, since
localStorage holds its JSON text) when present, the default deck when absent. -/
def initCards : Option (List Json) → List Json
  | none => defaultCards
  | some d => d

/-- Value of the leading run of decimal digits; none when there is no digit. -/
def digitsVal (cs : List Char) : Option Nat :=
  let ds := cs.takeWhile (fun c => c.isDigit)
  if ds.isEmpty then none
  else some (ds.foldl (fun acc c => acc * 10 + (c.toNat - 48)) 0)

/-- parseInt(s, 10): skip leading whitespace, read an optional sign, then the
leading decimal digits; when no digit follows, the result is NaN, modeled as
none. -/
def jsParseInt (s : String) : Option Int :=
  let cs := s.toList.dropWhile (fun c => c.isWhitespace)
  match cs with
  | '-' :: rest => (digitsVal rest).map (fun n => -(n : Int))
  | '+' :: rest => (digitsVal rest).map (fun n => (n : Int))
  | _ => (digitsVal cs).map (fun n => (n : Int))

/-- Cursor initializer, `savedIndex ? parseInt(savedIndex, 10) : 0`: an absent
entry (null) and the empty string are falsy and give 0; any other string goes
through parseInt, whose NaN result is modeled as none. -/
def initIndex : Option String → Option Int
  | none => some 0
  | some s => if s = "" then some 0 else jsParseInt s

/-- navigate: newIndex = (currentIndex + direction + cards.length) %
cards.length with the JavaScript remainder (truncated division, sign of the
dividend, hence Int.tmod); the flip flag is cleared. -/
def navigate (direction : Int) (st : AppState) : AppState :=
  { cards := st.cards,
    currentIndex :=
      Int.tmod (st.currentIndex + direction + (st.cards.length : Int)) (st.cards.length : Int),
    isFlipped := false }

/-- exportCards serializes the deck with JSON.stringify(cards, null, 2).
Modeled at the value level: stringify followed by parse is the identity on
JSON values, so the export/import pipeline is stated on values. The state is
not written. -/
def exportCards (st : AppState) : Json :=
  .arr st.cards

/-- Outcomes of importCards: the catch-all alert for a thrown error (a
JSON.parse failure or a TypeError inside the filter), the invalid-format
alert, the no-valid-cards alert, and the success alert with the count. -/
inductive ImportOutcome where
  | caughtError
  | invalidFormat
  | noValidCards
  | success (n : Nat)

/-- Whether an importCards outcome is the deck-replacing success branch. -/
def ImportOutcome.isSuccess : ImportOutcome → Bool
  | .success _ => true
  | _ => false

/-- importCards on the parsed file content; the input is the result of
JSON.parse, with none modeling a parse failure. Only the success branch
writes state: it replaces the deck with the filtered entries, zeroes the
cursor, and clears the flip. -/
def importCards (input : Option Json) (st : AppState) : AppState × ImportOutcome :=
  match input with
  | none => (st, .caughtError)
  | some (.arr importedCards) =>
    if importedCards.length > 0 then
      match filterValid importedCards with
      | none => (st, .caughtError)
      | some validCards =>
        if validCards.length > 0 then
          ({ cards := validCards, currentIndex := 0, isFlipped := false },
            .success validCards.length)
        else (st, .noValidCards)
    else (st, .invalidFormat)
  | some _ => (st, .invalidFormat)

/-- The String.prototype.trim of JavaScript: drop whitespace from both ends.
Written over the character list so that it evaluates by reduction. -/
def jsTrim (s : String) : String :=
  ⟨((s.toList.dropWhile Char.isWhitespace).reverse.dropWhile Char.isWhitespace).reverse⟩

/-- addCard with the two form fields as arguments: rejected when either one
trims to the empty string, otherwise the new card is appended; the cursor and
the flip flag are not written. -/
def addCard (front back : String) (st : AppState) : AppState :=
  if jsTrim front = "" ∨ jsTrim back = "" then st
  else { st with cards := st.cards ++ [mkCard front back] }

/-- The clamped start position of splice: a negative start counts from the
end, bounded below by 0; a nonnegative start is bounded above by the length. -/
def spliceStart (l : List Json) (start : Int) : Nat :=
  (if start < 0 then max ((l.length : Int) + start) 0 else min start (l.length : Int)).toNat

/-- splice(start, 1): remove one element at the clamped start position when
one exists there (a start at or past the end removes nothing). -/
def jsSpliceRemove (l : List Json) (start : Int) : List Json :=
  l.take (spliceStart l start) ++ l.drop (spliceStart l start + 1)

/-- deleteCard: early return on decks of length at most one, otherwise remove
the card at the cursor, clamp the cursor to the new last index, and clear the
flip. -/
def deleteCard (st : AppState) : AppState :=
  if st.cards.length ≤ 1 then st
  else
    let newCards := jsSpliceRemove st.cards st.currentIndex
    { cards := newCards,
      currentIndex := min st.currentIndex ((newCards.length : Int) - 1),
      isFlipped := false }

/-- The destructuring swap of two positions of the copied array; out-of-range
positions leave the list unchanged (in the shuffle loop both are always in
range). -/
def listSwap (l : List Json) (i j : Nat) : List Json :=
  match l[i]?, l[j]? with
  | some a, some b => (l.set i b).set j a
  | _, _ => l

/-- The Fisher-Yates loop of shuffleCards: iterate i from length - 1 down
to 1, swapping position i with position r i, where r i models the draw
Math.floor(Math.random() * (i + 1)) of that iteration. -/
def fyLoop (r : Nat → Nat) : Nat → List Json → List Json
  | 0, l => l
  | i + 1, l => fyLoop r i (listSwap l (i + 1) (r (i + 1)))

/-- shuffleCards: Fisher-Yates over a copy of the deck, then cursor to 0.
The flip flag is not written. -/
def shuffleCards (r : Nat → Nat) (st : AppState) : AppState :=
  { cards := fyLoop r (st.cards.length - 1) st.cards,
    currentIndex := 0,
    isFlipped := st.isFlipped }

/-- resetCards behind the confirm dialog: on confirmation the default deck
replaces everything, the cursor goes to 0, and the flip is cleared; on cancel
nothing happens. -/
def resetCards (confirmed : Bool) (st : AppState) : AppState :=
  if confirmed then { cards := defaultCards, currentIndex := 0, isFlipped := false }
  else st

/-- The user-triggerable operations of the deck manager, with their inputs
(the direction, the form fields, the random draws, the confirm answer, the
parsed import file). -/
inductive Op where
  | navigate (direction : Int)
  | flip
  | addCard (front back : String)
  | deleteCard
  | shuffle (r : Nat → Nat)
  | reset (confirmed : Bool)
  | importFile (input : Option Json)

/-- One handler invocation. -/
def applyOp : Op → AppState → AppState
  | .navigate d, st => navigate d st
  | .flip, st => { st with isFlipped := !st.isFlipped }
  | .addCard f b, st => addCard f b st
  | .deleteCard, st => deleteCard st
  | .shuffle r, st => shuffleCards r st
  | .reset c, st => resetCards c st
  | .importFile inp, st => (importCards inp st).1

/-- States reachable from startup: a session starts either with no persisted
deck (falling back to the default deck) or with a persisted deck written by an
earlier session, which is never empty; afterwards any sequence of handler
invocations runs. The loaded cursor is arbitrary (no bounds validation at
load). -/
inductive Reach : AppState → Prop where
  | start (idx : Int) : Reach ⟨initCards none, idx, false⟩
  | startSaved (d : List Json) (idx : Int) (h : d ≠ []) : Reach ⟨initCards (some d), idx, false⟩
  | step (op : Op) (st : AppState) : Reach st → Reach (applyOp op st)

/-! ### Permutation of the Fisher-Yates swap -/

/-- Moving the k-th element of a list to the front while planting x at
position k permutes consing x onto the list. -/
theorem cons_set_perm (x : Json) :
    ∀ (xs : List Json) (k : Nat) (hk : k < xs.length),
      List.Perm (xs.get ⟨k, hk⟩ :: xs.set k x) (x :: xs)
  | y :: ys, 0, _ => List.Perm.swap x y ys
  | y :: ys, k + 1, hk => by
    have ih := cons_set_perm x ys k (Nat.lt_of_succ_lt_succ hk)
    exact ((List.Perm.swap y (ys.get ⟨k, Nat.lt_of_succ_lt_succ hk⟩) (ys.set k x)).trans
      (ih.cons y)).trans (List.Perm.swap x y ys)

/-- Writing the j-th element at position i and the old i-th element at
position j is a permutation. -/
theorem set_set_swap_perm :
    ∀ (l : List Json) (i j : Nat) (hi : i < l.length) (hj : j < l.length),
      List.Perm ((l.set i (l.get ⟨j, hj⟩)).set j (l.get ⟨i, hi⟩)) l
  | x :: xs, 0, 0, _, _ => by simp
  | x :: xs, 0, j + 1, hi, hj => cons_set_perm x xs j (Nat.lt_of_succ_lt_succ hj)
  | x :: xs, i + 1, 0, hi, hj => cons_set_perm x xs i (Nat.lt_of_succ_lt_succ hi)
  | x :: xs, i + 1, j + 1, hi, hj =>
    (set_set_swap_perm xs i j (Nat.lt_of_succ_lt_succ hi) (Nat.lt_of_succ_lt_succ hj)).cons x

/-- Each destructuring swap permutes the list. -/
theorem listSwap_perm (l : List Json) (i j : Nat) : List.Perm (listSwap l i j) l := by
  unfold listSwap
  split
  · next a b hi hj =>
    obtain ⟨hilt, hieq⟩ := List.getElem?_eq_some.mp hi
    obtain ⟨hjlt, hjeq⟩ := List.getElem?_eq_some.mp hj
    subst hieq hjeq
    exact set_set_swap_perm l i j hilt hjlt
  · exact List.Perm.refl l

/-- The whole Fisher-Yates loop permutes the list, whatever the draws. -/
theorem fyLoop_perm (r : Nat → Nat) : ∀ (n : Nat) (l : List Json), List.Perm (fyLoop r n l) l
  | 0, l => List.Perm.refl l
  | n + 1, l => (fyLoop_perm r n _).trans (listSwap_perm l (n + 1) (r (n + 1)))

/-! ### Helper facts about the operations -/

/-- Removing one element drops the length by at most one. -/
theorem jsSpliceRemove_length_ge (l : List Json) (start : Int) :
    l.length - 1 ≤ (jsSpliceRemove l start).length := by
  unfold jsSpliceRemove
  simp only [List.length_append, List.length_take, List.length_drop]
  omega

/-- For an in-range nonnegative start the splice removes exactly the element
at that position. -/
theorem jsSpliceRemove_inrange (l : List Json) (i : Int) (h0 : 0 ≤ i)
    (hlt : i < (l.length : Int)) :
    jsSpliceRemove l i = l.take i.toNat ++ l.drop (i.toNat + 1) := by
  have hs : spliceStart l i = i.toNat := by
    unfold spliceStart
    rw [if_neg (by omega), min_eq_left (by omega)]
  unfold jsSpliceRemove
  rw [hs]

/-- For an in-range nonnegative start the splice drops the length by one. -/
theorem jsSpliceRemove_length_inrange (l : List Json) (i : Int) (h0 : 0 ≤ i)
    (hlt : i < (l.length : Int)) :
    (jsSpliceRemove l i).length = l.length - 1 := by
  rw [jsSpliceRemove_inrange l i h0 hlt]
  simp only [List.length_append, List.length_take, List.length_drop]
  omega

/-- Case analysis on importCards: either nothing is written and the outcome
is not a success, or the outcome is a success and the new state has a
non-empty deck, cursor 0, and a cleared flip. -/
theorem importCards_branches (inp : Option Json) (st : AppState) :
    ((importCards inp st).2.isSuccess = false ∧ (importCards inp st).1 = st) ∨
    ((importCards inp st).2.isSuccess = true ∧ 0 < (importCards inp st).1.cards.length ∧
      (importCards inp st).1.currentIndex = 0 ∧ (importCards inp st).1.isFlipped = false) := by
  cases inp with
  | none => exact Or.inl ⟨rfl, rfl⟩
  | some j =>
    cases j with
    | arr cs =>
      by_cases hlen : cs.length > 0
      · cases hfv : filterValid cs with
        | none =>
          left
          constructor <;> simp [importCards, hlen, hfv, ImportOutcome.isSuccess]
        | some valid =>
          by_cases hv : valid.length > 0
          · right
            refine ⟨?_, ?_, ?_, ?_⟩ <;>
              simp [importCards, hlen, hfv, hv, ImportOutcome.isSuccess]
          · left
            constructor <;> simp [importCards, hlen, hfv, hv, ImportOutcome.isSuccess]
      · left
        constructor <;> simp [importCards, hlen, ImportOutcome.isSuccess]
    | null => exact Or.inl ⟨rfl, rfl⟩
    | bool b => exact Or.inl ⟨rfl, rfl⟩
    | num n => exact Or.inl ⟨rfl, rfl⟩
    | str s => exact Or.inl ⟨rfl, rfl⟩
    | obj fields => exact Or.inl ⟨rfl, rfl⟩

/-- No handler invocation empties a non-empty deck. -/
theorem applyOp_cards_ne_nil (op : Op) (st : AppState) (h : st.cards ≠ []) :
    (applyOp op st).cards ≠ [] := by
  have hlen : 0 < st.cards.length := List.length_pos.mpr h
  cases op with
  | navigate d => exact h
  | flip => exact h
  | addCard f b =>
    show (addCard f b st).cards ≠ []
    unfold addCard
    split
    · exact h
    · simp
  | deleteCard =>
    show (deleteCard st).cards ≠ []
    unfold deleteCard
    split
    · exact h
    · next hgt =>
      show jsSpliceRemove st.cards st.currentIndex ≠ []
      rw [← List.length_pos]
      have hge := jsSpliceRemove_length_ge st.cards st.currentIndex
      omega
  | shuffle r =>
    show fyLoop r (st.cards.length - 1) st.cards ≠ []
    rw [← List.length_pos, (fyLoop_perm r _ _).length_eq]
    exact hlen
  | reset c =>
    show (resetCards c st).cards ≠ []
    unfold resetCards
    split
    · simp [defaultCards]
    · exact h
  | importFile inp =>
    show (importCards inp st).1.cards ≠ []
    rcases importCards_branches inp st with ⟨_, heq⟩ | ⟨_, hpos, _, _⟩
    · rw [heq]
      exact h
    · rw [← List.length_pos]
      exact hpos

/-- A generic modular-arithmetic step used for the navigate inverse. -/
theorem emod_shift_back (c L : Int) (h0 : 0 ≤ c) (hlt : c < L) :
    ((c + 1 + L) % L + -1 + L) % L = c := by
  have h1 : (c + 1 + L) % L + -1 + L = (c + 1 + L) % L + (-1 + L) := by ring
  rw [h1, Int.emod_add_emod]
  have h2 : c + 1 + L + (-1 + L) = c + L * 2 := by ring
  rw [h2, Int.add_mul_emod_self_left, Int.emod_eq_of_lt h0 hlt]

/-- When every entry passes the validity check, the filter keeps everything
and nothing throws (a valid entry is an object, never null). -/
theorem filterValid_all_valid :
    ∀ l : List Json, (∀ c ∈ l, cardValid c = true) → filterValid l = some l
  | [], _ => rfl
  | c :: rest, h => by
    have hc : cardValid c = true := h c (List.mem_cons_self c rest)
    have hrest : filterValid rest = some rest :=
      filterValid_all_valid rest (fun x hx => h x (List.mem_cons_of_mem c hx))
    cases c with
    | null => exact absurd hc (by simp [cardValid, jsTruthyField])
    | bool b => simp [filterValid, hrest, hc]
    | num n => simp [filterValid, hrest, hc]
    | str s => simp [filterValid, hrest, hc]
    | arr es => simp [filterValid, hrest, hc]
    | obj fs => simp [filterValid, hrest, hc]

/-! ### The claims -/

/-- C8: for every deck and every sequence of random draws, shuffleCards
produces a permutation of the deck, with the same multiset of cards and the
same length, and resets the cursor to 0. -/
theorem shuffle_perm (r : Nat → Nat) (st : AppState) :
    ((shuffleCards r st).cards : Multiset Json) = (st.cards : Multiset Json) ∧
    (shuffleCards r st).cards.length = st.cards.length ∧
    (shuffleCards r st).currentIndex = 0 :=
  ⟨Multiset.coe_eq_coe.mpr (fyLoop_perm r _ _), (fyLoop_perm r _ _).length_eq, rfl⟩

/-- C2: with nothing persisted, initialization yields the built-in three-card
default deck; every reachable state has a non-empty deck; and deleteCard on a
deck of exactly one card is rejected outright, guarding the invariant. -/
theorem deck_never_empty :
    (∀ idx : Int, (AppState.mk (initCards none) idx false).cards.length = 3) ∧
    (∀ st : AppState, Reach st → st.cards ≠ []) ∧
    (∀ st : AppState, st.cards.length = 1 → deleteCard st = st) := by
  refine ⟨fun idx => rfl, fun st h => ?_, fun st h1 => ?_⟩
  · induction h with
    | start idx => simp [initCards, defaultCards]
    | startSaved d idx hd => exact hd
    | step op st' hr ih => exact applyOp_cards_ne_nil op st' ih
  · unfold deleteCard
    rw [if_pos (by omega)]

/-- The non-emptiness invariant evaluated one deleteCard step after a fresh
start with nothing persisted. -/
theorem deck_never_empty_witness :
    (applyOp Op.deleteCard (AppState.mk (initCards none) 0 false)).cards ≠ [] :=
  deck_never_empty.2.1 _ (Reach.step Op.deleteCard _ (Reach.start 0))

/-- C1 counterexample: shuffling a flipped deck leaves the flip state set,
because shuffleCards never writes isFlipped; so the flip state is not false
after every deck-mutating operation. -/
theorem flip_not_cleared_by_shuffle :
    (shuffleCards (fun _ => 0)
      (AppState.mk [mkCard "a" "b", mkCard "c" "d"] 0 true)).isFlipped = true := rfl

/-- C1 amended: the flip state is false after navigate, after a deleting
deleteCard, after a confirmed resetCards, and after a deck-replacing
importCards; addCard and shuffleCards leave the flip state unchanged. -/
theorem flip_reset_behavior :
    (∀ (d : Int) (st : AppState), (navigate d st).isFlipped = false) ∧
    (∀ st : AppState, 1 < st.cards.length → (deleteCard st).isFlipped = false) ∧
    (∀ st : AppState, (resetCards true st).isFlipped = false) ∧
    (∀ (inp : Option Json) (st : AppState),
      (importCards inp st).2.isSuccess = true → (importCards inp st).1.isFlipped = false) ∧
    (∀ (f b : String) (st : AppState), (addCard f b st).isFlipped = st.isFlipped) ∧
    (∀ (r : Nat → Nat) (st : AppState), (shuffleCards r st).isFlipped = st.isFlipped) := by
  refine ⟨fun d st => rfl, fun st h => ?_, fun st => rfl, fun inp st h => ?_,
    fun f b st => ?_, fun r st => rfl⟩
  · unfold deleteCard
    rw [if_neg (by omega)]
  · rcases importCards_branches inp st with ⟨hf, _⟩ | ⟨_, _, _, hfl⟩
    · rw [hf] at h
      exact Bool.noConfusion h
    · exact hfl
  · unfold addCard
    split
    · rfl
    · rfl

/-- The amended flip behavior evaluated at a concrete flipped two-card
state. -/
theorem flip_reset_behavior_witness :
    (deleteCard (AppState.mk [mkCard "a" "b", mkCard "c" "d"] 0 true)).isFlipped = false :=
  flip_reset_behavior.2.1 _ (by decide)

/-- C4: importCards is atomic on every error path: whenever the outcome is
not the success branch (a caught parse error, an invalid format, or no valid
cards), the whole state, deck, cursor and flip included, is unchanged. -/
theorem import_error_paths_atomic (inp : Option Json) (st : AppState)
    (h : (importCards inp st).2.isSuccess = false) :
    (importCards inp st).1 = st := by
  rcases importCards_branches inp st with ⟨_, heq⟩ | ⟨hs, _, _, _⟩
  · exact heq
  · rw [hs] at h
    exact Bool.noConfusion h

/-- Import atomicity evaluated at a parse failure on the default start
state. -/
theorem import_error_paths_atomic_witness :
    (importCards none (AppState.mk defaultCards 0 false)).1 =
      AppState.mk defaultCards 0 false :=
  import_error_paths_atomic none _ rfl

/-- C3 counterexample: from index 0 of the three-card default deck, direction
-4 gives (0 - 4 + 3) % 3 = -1 under the JavaScript remainder, which is
outside [0, length - 1]; so the claim fails for arbitrary integer
directions. -/
theorem navigate_negative_result :
    (navigate (-4) (AppState.mk defaultCards 0 false)).currentIndex = -1 := by decide

/-- C3 amended: whenever current + direction + length is nonnegative, and in
particular for direction plus or minus one from an in-range cursor, navigate
computes (current + direction + length) mod length (the Euclidean value),
which lies in [0, length - 1]; and navigating with +1 then with -1 returns
the cursor to its original value. -/
theorem navigate_amended (st : AppState) (d : Int)
    (hne : st.cards ≠ []) (h0 : 0 ≤ st.currentIndex)
    (hlt : st.currentIndex < (st.cards.length : Int))
    (hd : 0 ≤ st.currentIndex + d + (st.cards.length : Int)) :
    (navigate d st).currentIndex =
      (st.currentIndex + d + (st.cards.length : Int)) % (st.cards.length : Int) ∧
    0 ≤ (navigate d st).currentIndex ∧
    (navigate d st).currentIndex < (st.cards.length : Int) ∧
    (navigate (-1) (navigate 1 st)).currentIndex = st.currentIndex := by
  have hL : 0 < (st.cards.length : Int) := by
    have := List.length_pos.mpr hne
    omega
  have htm : (navigate d st).currentIndex =
      (st.currentIndex + d + (st.cards.length : Int)) % (st.cards.length : Int) := by
    show Int.tmod _ _ = _
    exact Int.tmod_eq_emod hd (by omega)
  refine ⟨htm, ?_, ?_, ?_⟩
  · rw [htm]
    exact Int.emod_nonneg _ (by omega)
  · rw [htm]
    exact Int.emod_lt_of_pos _ hL
  · have h1 : (navigate 1 st).currentIndex =
        (st.currentIndex + 1 + (st.cards.length : Int)) % (st.cards.length : Int) := by
      show Int.tmod _ _ = _
      exact Int.tmod_eq_emod (by omega) (by omega)
    have h1n : 0 ≤ (navigate 1 st).currentIndex := by
      rw [h1]
      exact Int.emod_nonneg _ (by omega)
    have hcl : ((navigate 1 st).cards.length : Int) = (st.cards.length : Int) := rfl
    have h2 : (navigate (-1) (navigate 1 st)).currentIndex =
        ((navigate 1 st).currentIndex + -1 + (st.cards.length : Int)) %
          (st.cards.length : Int) := by
      show Int.tmod _ _ = _
      exact Int.tmod_eq_emod (by omega) (by omega)
    rw [h2, h1]
    exact emod_shift_back st.currentIndex (st.cards.length : Int) h0 hlt

/-- The amended navigate property evaluated at cursor 1 of the default deck
with direction +1. -/
theorem navigate_amended_witness :
    (navigate 1 (AppState.mk defaultCards 1 false)).currentIndex = 2 ∧
    (navigate (-1) (navigate 1 (AppState.mk defaultCards 1 false))).currentIndex = 1 := by
  have h := navigate_amended (AppState.mk defaultCards 1 false) 1
    (by simp [defaultCards]) (by decide) (by decide) (by decide)
  refine ⟨?_, h.2.2.2⟩
  rw [h.1]
  decide

/-- C5 counterexample: exporting the two-card deck whose second card has an
empty front and importing the result yields a one-card deck: the filter
drops the falsy-front card, so the round trip does not reproduce the deck. -/
theorem export_import_roundtrip_cex :
    ((importCards
        (some (exportCards (AppState.mk [mkCard "a" "b", mkCard "" "c"] 0 false)))
        (AppState.mk [mkCard "a" "b", mkCard "" "c"] 0 false)).1).cards ≠
      (AppState.mk [mkCard "a" "b", mkCard "" "c"] 0 false).cards := by
  intro heq
  exact absurd (congrArg List.length heq) (by decide)

/-- C5 amended: for every non-empty deck whose cards all pass the import
validity filter (truthy front and back, which holds for every card the app
itself builds), exporting and then importing the result reproduces the same
deck in the same order and resets the cursor to 0. -/
theorem export_import_roundtrip (st : AppState) (hne : st.cards ≠ [])
    (hval : ∀ c ∈ st.cards, cardValid c = true) :
    (importCards (some (exportCards st)) st).1.cards = st.cards ∧
    (importCards (some (exportCards st)) st).1.currentIndex = 0 := by
  have hfv : filterValid st.cards = some st.cards := filterValid_all_valid st.cards hval
  have hlen : st.cards.length > 0 := List.length_pos.mpr hne
  constructor <;> simp [importCards, exportCards, hfv, hlen]

/-- The round trip evaluated at a one-card deck with a nonzero cursor. -/
theorem export_import_roundtrip_witness :
    (importCards (some (exportCards (AppState.mk [mkCard "a" "b"] 1 true)))
      (AppState.mk [mkCard "a" "b"] 1 true)).1.cards = [mkCard "a" "b"] ∧
    (importCards (some (exportCards (AppState.mk [mkCard "a" "b"] 1 true)))
      (AppState.mk [mkCard "a" "b"] 1 true)).1.currentIndex = 0 :=
  export_import_roundtrip _ (by simp) (by decide)

/-- C6: deleteCard on a one-card deck changes nothing at all; on a longer
deck with an in-range cursor it removes exactly the card at the cursor
position, the length drops by one, and the cursor becomes
min(currentIndex, N - 2). -/
theorem deleteCard_spec (st : AppState) :
    (st.cards.length = 1 → deleteCard st = st) ∧
    (1 < st.cards.length → 0 ≤ st.currentIndex →
      st.currentIndex < (st.cards.length : Int) →
      (deleteCard st).cards =
        st.cards.take st.currentIndex.toNat ++ st.cards.drop (st.currentIndex.toNat + 1) ∧
      (deleteCard st).cards.length = st.cards.length - 1 ∧
      (deleteCard st).currentIndex = min st.currentIndex ((st.cards.length : Int) - 2)) := by
  constructor
  · intro h1
    unfold deleteCard
    rw [if_pos (by omega)]
  · intro hN h0 hlt
    have hdel : deleteCard st =
        { cards := jsSpliceRemove st.cards st.currentIndex,
          currentIndex :=
            min st.currentIndex
              (((jsSpliceRemove st.cards st.currentIndex).length : Int) - 1),
          isFlipped := false } := by
      unfold deleteCard
      rw [if_neg (by omega)]
    rw [hdel]
    refine ⟨jsSpliceRemove_inrange st.cards st.currentIndex h0 hlt, ?_, ?_⟩
    · exact jsSpliceRemove_length_inrange st.cards st.currentIndex h0 hlt
    · show min st.currentIndex _ = min st.currentIndex _
      congr 1
      rw [jsSpliceRemove_length_inrange st.cards st.currentIndex h0 hlt]
      omega

/-- deleteCard evaluated at the one-card no-op and at cursor 1 of the
three-card default deck. -/
theorem deleteCard_spec_witness :
    deleteCard (AppState.mk [mkCard "a" "b"] 0 false) = AppState.mk [mkCard "a" "b"] 0 false ∧
    (deleteCard (AppState.mk defaultCards 1 false)).cards =
      defaultCards.take 1 ++ defaultCards.drop 2 ∧
    (deleteCard (AppState.mk defaultCards 1 false)).currentIndex = 1 := by
  refine ⟨(deleteCard_spec _).1 (by decide), ?_, ?_⟩
  · exact ((deleteCard_spec (AppState.mk defaultCards 1 false)).2
      (by decide) (by decide) (by decide)).1
  · have h := ((deleteCard_spec (AppState.mk defaultCards 1 false)).2
      (by decide) (by decide) (by decide)).2.2
    rw [h]
    decide

/-- C7: addCard is a no-op when either field trims to the empty string;
otherwise it appends exactly the one new card at the end, the length grows
by one, and the cursor is unchanged. -/
theorem addCard_spec (front back : String) (st : AppState) :
    ((jsTrim front = "" ∨ jsTrim back = "") → addCard front back st = st) ∧
    (jsTrim front ≠ "" → jsTrim back ≠ "" →
      (addCard front back st).cards = st.cards ++ [mkCard front back] ∧
      (addCard front back st).cards.length = st.cards.length + 1 ∧
      (addCard front back st).currentIndex = st.currentIndex) := by
  constructor
  · intro h
    unfold addCard
    rw [if_pos h]
  · intro hf hb
    have ha : addCard front back st =
        { st with cards := st.cards ++ [mkCard front back] } := by
      unfold addCard
      rw [if_neg (by tauto)]
    rw [ha]
    exact ⟨rfl, by simp, rfl⟩

/-- addCard evaluated at a blank front (no-op) and at the accepted pair
(a, b) appended to the default deck. -/
theorem addCard_spec_witness :
    addCard "" "x" (AppState.mk defaultCards 0 false) = AppState.mk defaultCards 0 false ∧
    (addCard "a" "b" (AppState.mk defaultCards 2 false)).cards =
      defaultCards ++ [mkCard "a" "b"] :=
  ⟨(addCard_spec "" "x" _).1 (Or.inl rfl),
   ((addCard_spec "a" "b" _).2 (by decide) (by decide)).1⟩

/-- C10: when addCard accepts its inputs, the appended card stores the front
and back strings verbatim, untrimmed: trimming is used only for the
emptiness check. -/
theorem addCard_verbatim (front back : String) (st : AppState)
    (hf : jsTrim front ≠ "") (hb : jsTrim back ≠ "") :
    (addCard front back st).cards =
      st.cards ++ [Json.obj [("front", Json.str front), ("back", Json.str back)]] := by
  unfold addCard
  rw [if_neg (by tauto)]
  rfl

/-- Verbatim storage evaluated at fields with surrounding whitespace. -/
theorem addCard_verbatim_witness :
    (addCard " a " " b " (AppState.mk defaultCards 0 false)).cards =
      defaultCards ++ [Json.obj [("front", Json.str " a "), ("back", Json.str " b ")]] :=
  addCard_verbatim " a " " b " _ (by decide) (by decide)

/-- C9 counterexample: the persisted value "abc" is truthy, so the
initializer hands it to parseInt, which yields NaN (modeled as none), not 0:
a non-numeric persisted cursor does not default to 0. -/
theorem init_cursor_nonnumeric_nan : initIndex (some "abc") ≠ some 0 := by decide

/-- C9 amended: an absent persisted cursor entry, and likewise the empty
string (both falsy), default to 0; every other string is handed to
parseInt(s, 10), whose result is NaN (none) when the string has no leading
decimal number. -/
theorem init_cursor_amended :
    initIndex none = some 0 ∧
    initIndex (some "") = some 0 ∧
    (∀ s : String, s ≠ "" → initIndex (some s) = jsParseInt s) := by
  refine ⟨rfl, by decide, fun s hs => ?_⟩
  show (if s = "" then some 0 else jsParseInt s) = jsParseInt s
  rw [if_neg hs]

/-- The amended cursor initialization evaluated at the numeric string 42. -/
theorem init_cursor_amended_witness :
    initIndex (some "42") = jsParseInt "42" :=
  init_cursor_amended.2.2 "42" (by decide)
